import Mathlib

/-!
Verification of the remote-filesystem core of JavSP (`javsp/remote_fs.py`).

The Python module is shallowly embedded as executable Lean definitions.
External effects (the operating system, the FTP server, the SMB server)
are modelled as explicit oracles / abstract machines passed as arguments:
each call that can fail in Python is modelled with `Except String`, and
`raise`/`try ... except` becomes explicit case analysis on those results.
-/

/-! ## Python string primitives used by the module

All primitives are written by structural recursion over the character
list of the string, mirroring the Python semantics of `str.split`,
`str.strip`, `str.lower`, `str.startswith`, `str.join`, `str.replace`
and `int()` for the inputs the module feeds them. -/

/-- Remove a trailing run of characters satisfying `p`. -/
def dropTrailing (p : Char → Bool) : List Char → List Char
  | [] => []
  | c :: rest =>
    match dropTrailing p rest with
    | [] => if p c then [] else [c]
    | r => c :: r

/-- Python `s.strip('/')`: remove leading and trailing `'/'` characters. -/
def pyStripSlash (s : String) : String :=
  String.mk (dropTrailing (fun c => c == '/') (s.data.dropWhile (fun c => c == '/')))

/-- Python `s.strip()`: remove leading and trailing whitespace. -/
def pyStrip (s : String) : String :=
  String.mk (dropTrailing Char.isWhitespace (s.data.dropWhile Char.isWhitespace))

/-- Python `s.lower()` (ASCII case folding suffices for this module). -/
def pyLower (s : String) : String :=
  String.mk (s.data.map Char.toLower)

/-- Is the first list a prefix of the second? -/
def isPrefixCh : List Char → List Char → Bool
  | [], _ => true
  | _ :: _, [] => false
  | a :: as, b :: bs => a = b && isPrefixCh as bs

/-- Python `s.startswith(pre)`. -/
def pyStartsWith (s pre : String) : Bool :=
  isPrefixCh pre.data s.data

/-- If `sep` is a prefix of the list, return what follows it. -/
def stripSepFront : List Char → List Char → Option (List Char)
  | [], l => some l
  | _ :: _, [] => none
  | s :: ss, c :: cs => if s = c then stripSepFront ss cs else none

/-- Worker for `pySplit`: scan left to right, closing a field at each
(non-overlapping) occurrence of the separator.  `fuel` at least the input
length makes the recursion structural. -/
def pySplitGo (sep : List Char) : Nat → List Char → List (List Char)
  | 0, l => [l]
  | _ + 1, [] => [[]]
  | fuel + 1, c :: cs =>
    match stripSepFront sep (c :: cs) with
    | some rest => [] :: pySplitGo sep fuel rest
    | none =>
      match pySplitGo sep fuel cs with
      | s :: ss => (c :: s) :: ss
      | [] => [[c]]

/-- Python `s.split(sep)` for a non-empty separator. -/
def pySplit (s sep : String) : List String :=
  if sep = "" then [s]
  else (pySplitGo sep.data s.data.length s.data).map String.mk

/-- Python `sep.join(l)`. -/
def pyJoinSep (sep : String) : List String → String
  | [] => ""
  | [a] => a
  | a :: rest => a ++ sep ++ pyJoinSep sep rest

/-- Python `s.replace(a, b)` for single-character pattern and
replacement. -/
def pyReplaceChar (s : String) (a b : Char) : String :=
  String.mk (s.data.map (fun c => if c = a then b else c))

/-- Python `int(s, 10)` as used on port numbers: all-digit strings. -/
def pyToNat? (s : String) : Option Nat :=
  if s.data ≠ [] ∧ s.data.all Char.isDigit then
    some (s.data.foldl (fun n c => n * 10 + (c.toNat - 48)) 0)
  else none

/-- Python `'/'.join(l)`: concatenate the strings of `l` with `'/'` between
consecutive elements. -/
def slashJoinAll : List String → String
  | [] => ""
  | [a] => a
  | a :: rest => a ++ "/" ++ slashJoinAll rest

/-- `RemoteFileSystem.join` (remote_fs.py:39-41):
`'/'.join(p.strip('/') for p in paths if p)`.  Python truthiness of a string
is non-emptiness, so empty arguments are filtered out first and every kept
argument is stripped of leading/trailing slashes. -/
def fsJoin (paths : List String) : String :=
  slashJoinAll ((paths.filter (fun p => p != "")).map pyStripSlash)

/-- Python `s.split(sep, 1)`: split at the first occurrence of `sep` only. -/
def pySplit1 (s sep : String) : List String :=
  match pySplit s sep with
  | [] => [s]
  | [a] => [a]
  | a :: rest => [a, pyJoinSep sep rest]

/-- The `'/'`-segmentation of a character list: `segsCh l` is the list of
maximal `'/'`-free runs of `l`, so an empty element corresponds to an empty
path segment (leading, trailing, or doubled separator). -/
def segsCh : List Char → List (List Char)
  | [] => [[]]
  | c :: rest =>
    if c = '/' then [] :: segsCh rest
    else (c :: (segsCh rest).headD []) :: (segsCh rest).tail

/-! ## MLSD listing-line classification (body of `FTPFileSystem.walk`,
remote_fs.py:127-142) -/

/-- The entry name of an MLSD listing line: `item.split(';')[-1].strip()`. -/
def mlsdEntryName (item : String) : String :=
  pyStrip ((pySplit item ";").getLastD "")

/-- The entry type of an MLSD listing line: scan the fields before the last
one for the first (case-insensitive) `type=` fact; default `"file"`.
This is the loop `for part in parts[:-1]: if part.lower().startswith('type='):
item_type = part.split('=')[1].lower(); break`. -/
def mlsdEntryType (item : String) : String :=
  let parts := pySplit item ";"
  match parts.dropLast.find? (fun part => pyStartsWith (pyLower part) "type=") with
  | some part => pyLower ((pySplit part "=").getD 1 "")
  | none => "file"

/-- Classification of a full MLSD listing into `(dirnames, filenames)`
(remote_fs.py:127-142): navigation entries `.`/`..` are skipped, `type=dir`
entries go to the first list, `type=file` entries to the second, anything
else is dropped. -/
def classifyMlsd : List String → List String × List String
  | [] => ([], [])
  | item :: rest =>
    let r := classifyMlsd rest
    let name := mlsdEntryName item
    if name = "." ∨ name = ".." then r
    else if mlsdEntryType item = "dir" then (name :: r.1, r.2)
    else if mlsdEntryType item = "file" then (r.1, name :: r.2)
    else r

/-! ## FTP backend

The FTP server (plus the network between us and it) is modelled as an
abstract deterministic machine over a session-state type `σ` (the state
holds at least the current working directory).  Every protocol operation
may fail, which models both error replies and transport failures. -/

structure FtpSrv (σ : Type) where
  /-- Outcome of `FTP(); connect(); login()` (remote_fs.py:75-84). -/
  connectR : Except String σ
  /-- `ftp.pwd()`: reports the working directory, no state change. -/
  pwdR : σ → Except String String
  /-- `ftp.cwd(arg)`: on success the state changes; on failure it does not. -/
  cwdR : σ → String → Except String σ
  /-- `ftp.size(path)`: `ftplib` may return `None`, hence `Option Nat`. -/
  sizeR : σ → String → Except String (Option Nat)
  /-- `ftp.retrlines('MLSD', ...)`: the listing lines of the working dir. -/
  mlsdR : σ → Except String (List String)
  /-- `ftp.nlst()`: the entry names of the working dir. -/
  nlstR : σ → Except String (List String)

/-- The mutable state of an `FTPFileSystem` instance: the cached connection
`self._ftp` (remote_fs.py:73), plus a ghost counter of how many connections
have ever been established (it influences no behaviour; it makes
re-connection observable). -/
structure FtpInst (σ : Type) where
  conn : Option σ
  opens : Nat
deriving DecidableEq

/-- `FTPFileSystem._connect` (remote_fs.py:75-84): return the cached
connection if present, otherwise connect, cache and return. -/
def FTPFileSystem.connectOp {σ : Type} (srv : FtpSrv σ) (i : FtpInst σ) :
    Except String (σ × FtpInst σ) :=
  match i.conn with
  | some c => .ok (c, i)
  | none =>
    match srv.connectR with
    | .error e => .error e
    | .ok c => .ok (c, ⟨some c, i.opens + 1⟩)

/-- `FTPFileSystem.close` (remote_fs.py:182-189): `quit` (errors suppressed)
and clear the cached connection. -/
def FTPFileSystem.close {σ : Type} (i : FtpInst σ) : FtpInst σ :=
  { conn := none, opens := i.opens }

/-- `FTPFileSystem.get_size` (remote_fs.py:149-155): connect (outside the
`try`, so a connection failure propagates), then `ftp.size(path) or 0`
with any exception collapsed to `0`. -/
def FTPFileSystem.get_size {σ : Type} (srv : FtpSrv σ) (i : FtpInst σ)
    (path : String) : Except String (Nat × FtpInst σ) :=
  match FTPFileSystem.connectOp srv i with
  | .error e => .error e
  | .ok (c, i1) =>
    match srv.sizeR c path with
    | .ok r => .ok (r.getD 0, i1)
    | .error _ => .ok (0, i1)

/-- The `except` branch of `FTPFileSystem.exists` (remote_fs.py:164-169):
`ftp.size(path)` succeeding means the path exists. -/
def ftpExistsFallback {σ : Type} (srv : FtpSrv σ) (i1 : FtpInst σ) (c : σ)
    (path : String) : Except String (Bool × FtpInst σ) :=
  match srv.sizeR c path with
  | .ok _ => .ok (true, { i1 with conn := some c })
  | .error _ => .ok (false, { i1 with conn := some c })

/-- `FTPFileSystem.exists` (remote_fs.py:157-169): connect (failure
propagates), try `cwd(path); cwd('/')`, on any exception fall back to a
size probe.  The cached connection tracks the mutated session state. -/
def FTPFileSystem.exists' {σ : Type} (srv : FtpSrv σ) (i : FtpInst σ)
    (path : String) : Except String (Bool × FtpInst σ) :=
  match FTPFileSystem.connectOp srv i with
  | .error e => .error e
  | .ok (c, i1) =>
    match srv.cwdR c path with
    | .ok c1 =>
      match srv.cwdR c1 "/" with
      | .ok c2 => .ok (true, { i1 with conn := some c2 })
      | .error _ => ftpExistsFallback srv i1 c1 path
    | .error _ => ftpExistsFallback srv i1 c path

/-- The body of `FTPFileSystem.is_dir` on an established connection
(remote_fs.py:174-180): `current = ftp.pwd(); ftp.cwd(path);
ftp.cwd(current); return True`, any exception yielding `False`.  The
returned state is the session state after the attempt (note that when only
the restoring `cwd(current)` fails, the session is left inside `path`). -/
def FTPFileSystem.is_dirConn {σ : Type} (srv : FtpSrv σ) (c : σ)
    (path : String) : Bool × σ :=
  match srv.pwdR c with
  | .error _ => (false, c)
  | .ok cur =>
    match srv.cwdR c path with
    | .error _ => (false, c)
    | .ok c1 =>
      match srv.cwdR c1 cur with
      | .error _ => (false, c1)
      | .ok c2 => (true, c2)

/-- `FTPFileSystem.is_dir` (remote_fs.py:171-180): connect (failure
propagates), then the pwd/cwd/cwd probe. -/
def FTPFileSystem.is_dir {σ : Type} (srv : FtpSrv σ) (i : FtpInst σ)
    (path : String) : Except String (Bool × FtpInst σ) :=
  match FTPFileSystem.connectOp srv i with
  | .error e => .error e
  | .ok (c, i1) =>
    let r := FTPFileSystem.is_dirConn srv c path
    .ok (r.1, { i1 with conn := some r.2 })

/-- The NLST fallback scan of `FTPFileSystem.walk` (remote_fs.py:110-118):
for each name, skip `.`/`..`, otherwise `try: ftp.cwd(name); ftp.cwd('..');
dirnames.append(name) except: filenames.append(name)`.  The session state
is threaded through: a successful `cwd(name)` followed by a failing
`cwd('..')` leaves the session inside `name`.  Returns
`(dirnames, filenames, final state)`. -/
def nlstScan {σ : Type} (srv : FtpSrv σ) :
    List String → σ → List String × List String × σ
  | [], s => ([], [], s)
  | n :: rest, s =>
    if n = "." ∨ n = ".." then nlstScan srv rest s
    else
      match srv.cwdR s n with
      | .error _ =>
        let r := nlstScan srv rest s
        (r.1, n :: r.2.1, r.2.2)
      | .ok s1 =>
        match srv.cwdR s1 ".." with
        | .error _ =>
          let r := nlstScan srv rest s1
          (r.1, n :: r.2.1, r.2.2)
        | .ok s2 =>
          let r := nlstScan srv rest s2
          (n :: r.1, r.2.1, r.2.2)

/-- Whether the directory-change probe used by the NLST fallback succeeds
from state `s` on entry `n`: `cwd(n)` and then `cwd('..')` both succeed. -/
def probeOkB {σ : Type} (srv : FtpSrv σ) (s : σ) (n : String) : Bool :=
  match srv.cwdR s n with
  | .error _ => false
  | .ok s1 =>
    match srv.cwdR s1 ".." with
    | .error _ => false
    | .ok _ => true

/-- One iteration of the `while dirs_to_visit` loop of `FTPFileSystem.walk`
(remote_fs.py:91-147) on the popped path `current`: returns the optional
yielded triple, the session state afterwards, and the paths appended to the
frontier.  `cwd` failure skips the directory; MLSD is attempted first and
its lines classified; on MLSD failure the NLST fallback runs; if that also
fails the directory is skipped (with the session left inside it). -/
def ftpWalkStep {σ : Type} (srv : FtpSrv σ) (c : σ) (current : String) :
    Option (String × List String × List String) × σ × List String :=
  match srv.cwdR c current with
  | .error _ => (none, c, [])
  | .ok c1 =>
    match srv.mlsdR c1 with
    | .ok items =>
      let r := classifyMlsd items
      (some (current, r.1, r.2), c1, r.1.map (fun d => fsJoin [current, d]))
    | .error _ =>
      match srv.nlstR c1 with
      | .error _ => (none, c1, [])
      | .ok names =>
        let r := nlstScan srv names c1
        (some (current, r.1, r.2.1), r.2.2,
          r.1.map (fun d => fsJoin [current, d]))

/-- The `while dirs_to_visit` loop of `FTPFileSystem.walk`: a FIFO frontier
(`pop(0)` from the front, children appended at the back).  The loop in the
source runs until the queue empties; `fuel` bounds the number of
iterations so the definition is total. -/
def ftpWalkLoop {σ : Type} (srv : FtpSrv σ) :
    Nat → σ → List String → List (String × List String × List String)
  | 0, _, _ => []
  | _ + 1, _, [] => []
  | fuel + 1, c, current :: rest =>
    let r := ftpWalkStep srv c current
    r.1.toList ++ ftpWalkLoop srv fuel r.2.1 (rest ++ r.2.2)

/-- `FTPFileSystem.walk` (remote_fs.py:86-147): connect (failure
propagates), then run the frontier loop seeded with `[path]`. -/
def FTPFileSystem.walk {σ : Type} (srv : FtpSrv σ) (i : FtpInst σ)
    (fuel : Nat) (path : String) :
    Except String (List (String × List String × List String)) :=
  match FTPFileSystem.connectOp srv i with
  | .error e => .error e
  | .ok (c, _) => .ok (ftpWalkLoop srv fuel c [path])

/-! ## Local backend

The operating-system file-status layer is an oracle `osStat`; per CPython,
`os.path.exists`/`os.path.isdir` swallow `OSError` and return `False`,
while `os.path.getsize` propagates the error. -/

structure OsStatInfo where
  size : Nat
  isDirectory : Bool
deriving DecidableEq

/-- CPython `os.path.getsize`: a failing `os.stat` propagates. -/
def os_path_getsize (osStat : String → Except String OsStatInfo)
    (p : String) : Except String Nat :=
  match osStat p with
  | .ok st => .ok st.size
  | .error e => .error e

/-- CPython `os.path.exists`: `os.stat` errors are swallowed. -/
def os_path_exists (osStat : String → Except String OsStatInfo)
    (p : String) : Bool :=
  match osStat p with
  | .ok _ => true
  | .error _ => false

/-- CPython `os.path.isdir`: `os.stat` errors are swallowed. -/
def os_path_isdir (osStat : String → Except String OsStatInfo)
    (p : String) : Bool :=
  match osStat p with
  | .ok st => st.isDirectory
  | .error _ => false

/-- `LocalFileSystem.get_size` (remote_fs.py:50-51): bare delegation to
`os.path.getsize`. -/
def LocalFileSystem.get_size (osStat : String → Except String OsStatInfo)
    (p : String) : Except String Nat :=
  os_path_getsize osStat p

/-- `LocalFileSystem.exists` (remote_fs.py:53-54). -/
def LocalFileSystem.exists' (osStat : String → Except String OsStatInfo)
    (p : String) : Bool :=
  os_path_exists osStat p

/-- `LocalFileSystem.is_dir` (remote_fs.py:56-57). -/
def LocalFileSystem.is_dir (osStat : String → Except String OsStatInfo)
    (p : String) : Bool :=
  os_path_isdir osStat p

/-! ## SMB backend probes (remote_fs.py:275-305)

The whole body of each probe, including the import of the optional
transport library and the `smbclient.stat` call, sits inside
`try ... except`, modelled by the oracle `smbStat`. -/

structure SmbStatInfo where
  st_size : Nat
  modeIsDir : Bool
deriving DecidableEq

/-- The UNC translation used by every SMB probe:
`'\\\\' + host + '\\' + share + path.replace('/', '\\')`. -/
def SMBFileSystem.smb_path (host share path : String) : String :=
  "\\\\" ++ host ++ "\\" ++ share ++ pyReplaceChar path '/' '\\'

/-- `SMBFileSystem.get_size` (remote_fs.py:275-283). -/
def SMBFileSystem.get_size (smbStat : String → Except String SmbStatInfo)
    (host share path : String) : Nat :=
  match smbStat (SMBFileSystem.smb_path host share path) with
  | .ok st => st.st_size
  | .error _ => 0

/-- `SMBFileSystem.exists` (remote_fs.py:285-294). -/
def SMBFileSystem.exists' (smbStat : String → Except String SmbStatInfo)
    (host share path : String) : Bool :=
  match smbStat (SMBFileSystem.smb_path host share path) with
  | .ok _ => true
  | .error _ => false

/-- `SMBFileSystem.is_dir` (remote_fs.py:296-305): `stat.S_ISDIR(st_mode)`. -/
def SMBFileSystem.is_dir (smbStat : String → Except String SmbStatInfo)
    (host share path : String) : Bool :=
  match smbStat (SMBFileSystem.smb_path host share path) with
  | .ok st => st.modeIsDir
  | .error _ => false

/-! ## Backend factory (`get_filesystem`, remote_fs.py:308-339) -/

structure FtpConfig where
  host : String
  port : Nat
  username : String
  password : String
  encoding : String
deriving DecidableEq

structure SmbConfig where
  host : String
  share : String
  path : String
  username : Option String
  password : Option String
  port : Nat
deriving DecidableEq

structure RemoteFsConfig where
  type : String
  ftp : Option FtpConfig
  smb : Option SmbConfig
deriving DecidableEq

structure ScannerConfig where
  remote_fs : Option RemoteFsConfig
deriving DecidableEq

structure Cfg where
  scanner : ScannerConfig
deriving DecidableEq

/-- The constructed backend instance.  The `conn`/`session` fields record
the lazily-cached connection, `none` at construction: `get_filesystem`
only constructs, it never connects. -/
inductive FsInstance where
  | localfs
  | ftpfs (host : String) (port : Nat) (username password encoding : String)
      (conn : Option Unit)
  | smbfs (host share path : String) (username password : Option String)
      (port : Nat) (session : Option Unit)
deriving DecidableEq

/-- `get_filesystem` (remote_fs.py:308-339).  Raising `ValueError` is
modelled as returning `.error` with the exact message of the source. -/
def get_filesystem (cfg : Cfg) : Except String FsInstance :=
  match cfg.scanner.remote_fs with
  | none => .ok .localfs
  | some rf =>
    if rf.type = "local" then .ok .localfs
    else if rf.type = "ftp" then
      match rf.ftp with
      | none => .error "FTP配置缺失，请在config.yml中配置scanner.remote_fs.ftp"
      | some f => .ok (.ftpfs f.host f.port f.username f.password f.encoding none)
    else if rf.type = "smb" then
      match rf.smb with
      | none => .error "SMB配置缺失，请在config.yml中配置scanner.remote_fs.smb"
      | some s =>
        .ok (.smbfs s.host s.share s.path s.username s.password s.port none)
    else .error ("不支持的远程文件系统类型: " ++ rf.type)

/-! ## URL parser (`parse_remote_url`, remote_fs.py:342-373)

`urllib.parse.urlparse` is part of the Python standard library; it is
modelled here for hierarchical URLs of the shape
`scheme://[user[:pass]@]host[:port]/path` (no query/fragment components,
no IPv6 bracket syntax, numeric ports), which covers the URL forms the
source documents. -/

structure UrlParts where
  scheme : String
  username : Option String
  password : Option String
  hostname : Option String
  port : Option Nat
  path : String
deriving DecidableEq

/-- Split `rest` (what follows `scheme://`) into netloc and path: the
netloc runs up to the first `'/'`, the path keeps that `'/'`. -/
def netlocAndPath (rest : String) : String × String :=
  match pySplit1 rest "/" with
  | [a, b] => (a, "/" ++ b)
  | _ => (rest, "")

/-- Model of `urllib.parse.urlparse` (see section comment): scheme
lowercased, userinfo split from the netloc at the last `'@'`, username and
password split at the first `':'`, hostname lowercased (`none` when
empty), port the digits after the last component's first `':'`. -/
def urlparseM (url : String) : UrlParts :=
  match pySplit1 url "://" with
  | [scheme0, rest] =>
    let np := netlocAndPath rest
    let auth := pySplit np.1 "@"
    let userHost : Option String × String :=
      match auth with
      | [hp] => (none, hp)
      | parts => (some (pyJoinSep "@" parts.dropLast), parts.getLastD "")
    let userPw : Option String × Option String :=
      match userHost.1 with
      | none => (none, none)
      | some ui =>
        match pySplit1 ui ":" with
        | [u, pw] => (some u, some pw)
        | _ => (some ui, none)
    let hp := pySplit1 userHost.2 ":"
    let host0 := hp.headD ""
    { scheme := pyLower scheme0
      username := userPw.1
      password := userPw.2
      hostname := if host0 = "" then none else some (pyLower host0)
      port := match hp with | _ :: p :: _ => pyToNat? p | _ => none
      path := np.2 }
  | _ =>
    { scheme := "", username := none, password := none, hostname := none,
      port := none, path := url }

/-- The result of `parse_remote_url`: the `(kind, dict)` pair of the source
as a sum of the three parameter records. -/
inductive ParsedRemote where
  | ftpUrl (host : String) (port : Nat) (username password path : String)
  | smbUrl (host share path : String) (username password : Option String)
      (port : Nat)
  | localUrl (path : String)
deriving DecidableEq

/-- `parse_remote_url` (remote_fs.py:342-373). -/
def parse_remote_url (url : String) : ParsedRemote :=
  let parsed := urlparseM url
  if parsed.scheme = "ftp" then
    .ftpUrl (parsed.hostname.getD "localhost") (parsed.port.getD 21)
      (parsed.username.getD "anonymous") (parsed.password.getD "")
      (if parsed.path = "" then "/" else parsed.path)
  else if parsed.scheme = "smb" ∨ parsed.scheme = "cifs" then
    let path_parts := pySplit1 (pyStripSlash parsed.path) "/"
    let share := path_parts.headD ""
    let path := match path_parts with
      | _ :: p :: _ => "/" ++ p
      | _ => "/"
    .smbUrl (parsed.hostname.getD "localhost") share path
      parsed.username parsed.password (parsed.port.getD 445)
  else .localUrl url

/-! ## Concrete fixtures

A deterministic FTP server backed by a finite directory tree.  The session
state is the working directory as a list of path segments; `CWD` resolves
its argument against the working directory exactly as an FTP server does
(RFC 959): absolute arguments from the root, relative ones from the
current directory, with `.`/`..` handled. -/

inductive FsTree where
  | node (subdirs : List (String × FsTree)) (files : List String)

def FsTree.subdirs : FsTree → List (String × FsTree)
  | .node ds _ => ds

def FsTree.files : FsTree → List String
  | .node _ fs => fs

/-- Look up the subtree at a segment path. -/
def findDir : FsTree → List String → Option FsTree
  | t, [] => some t
  | t, s :: rest =>
    match t.subdirs.find? (fun p => p.1 = s) with
    | none => none
    | some p => findDir p.2 rest

/-- Apply one path segment to a working directory. -/
def applySeg (wd : List String) (s : String) : List String :=
  if s = "." then wd
  else if s = ".." then wd.dropLast
  else wd ++ [s]

/-- The non-empty segments of a path string. -/
def pathSegs (arg : String) : List String :=
  (pySplit arg "/").filter (fun s => s != "")

/-- FTP `CWD` resolution: absolute arguments resolve from the root,
relative ones from the current working directory. -/
def resolveCwd (wd : List String) (arg : String) : List String :=
  (pathSegs arg).foldl applySeg (if pyStartsWith arg "/" then [] else wd)

/-- The machine-readable listing a server produces for a directory:
one `type=dir` fact line per subdirectory, one `type=file` per file. -/
def mlsdLines (t : FsTree) : List String :=
  t.subdirs.map (fun p => "type=dir; " ++ p.1)
    ++ t.files.map (fun f => "type=file; " ++ f)

/-- The tree-backed FTP server.  `SIZE` succeeds exactly on files (many
real servers reject it on directories, as the spec notes). -/
def treeSrv (root : FsTree) : FtpSrv (List String) where
  connectR := .ok []
  pwdR := fun wd => .ok ("/" ++ pyJoinSep "/" wd)
  cwdR := fun wd arg =>
    match findDir root (resolveCwd wd arg) with
    | some _ => .ok (resolveCwd wd arg)
    | none => .error "550 Failed to change directory."
  sizeR := fun wd p =>
    let segs := resolveCwd wd p
    match findDir root segs.dropLast with
    | some t =>
      match segs.getLast? with
      | some f => if f ∈ t.files then .ok (some 1000) else .error "550"
      | none => .error "550"
    | none => .error "550"
  mlsdR := fun wd =>
    match findDir root wd with
    | some t => .ok (mlsdLines t)
    | none => .error "425"
  nlstR := fun wd =>
    match findDir root wd with
    | some t => .ok (t.subdirs.map (fun p => p.1) ++ t.files)
    | none => .error "425"

/-- Fixture for the walk claims: `/a/f.mkv`, `/a/b/g.mkv` (three
directories: `/`, `/a`, `/a/b`). -/
def treeC2 : FsTree :=
  .node [("a", .node [("b", .node [] ["g.mkv"])] ["f.mkv"])] []

def srvC2 : FtpSrv (List String) := treeSrv treeC2

/-- Fixture for the enqueue claim: directories `/media` and `/media/sub`. -/
def treeM : FsTree := .node [("media", .node [("sub", .node [] [])] [])] []

def srvM : FtpSrv (List String) := treeSrv treeM

/-- A server on which every operation succeeds (session state a counter). -/
def srvOkAll : FtpSrv Nat where
  connectR := .ok 0
  pwdR := fun _ => .ok "/"
  cwdR := fun n _ => .ok (n + 1)
  sizeR := fun _ _ => .ok (some 7)
  mlsdR := fun _ => .ok []
  nlstR := fun _ => .ok []

/-- A server that refuses the connection (host unreachable / bad login). -/
def srvConnFail : FtpSrv Unit where
  connectR := .error "ConnectionRefusedError"
  pwdR := fun _ => .error "421"
  cwdR := fun _ _ => .error "421"
  sizeR := fun _ _ => .error "421"
  mlsdR := fun _ => .error "421"
  nlstR := fun _ => .error "421"

/-- A server whose connection drops right after a successful `cwd` into
`d` from `/home`: the restoring `cwd` of `is_dir` then fails.  Session
state is the working directory string. -/
def srvCwdDrop : FtpSrv String where
  connectR := .ok "/home"
  pwdR := fun s => .ok s
  cwdR := fun s arg =>
    if s = "/home" ∧ arg = "d" then .ok "/home/d"
    else .error "421 Service not available."
  sizeR := fun _ _ => .error "421"
  mlsdR := fun _ => .error "421"
  nlstR := fun _ => .error "421"

/-- A server without MLSD whose `cwd` succeeds exactly on `movies` and
`..`, independently of the session state (used for the NLST fallback
witness). -/
def srvFlat : FtpSrv String where
  connectR := .ok "/"
  pwdR := fun s => .ok s
  cwdR := fun s n =>
    if n = "movies" ∨ n = ".." then .ok (s ++ "/" ++ n)
    else .error "550"
  sizeR := fun _ _ => .error "550"
  mlsdR := fun _ => .error "500 Unknown command."
  nlstR := fun _ => .ok ["movies", "clip.mp4", "."]

/-- The probe outcome of `srvFlat` as a pure function of the name. -/
def probeFlat (n : String) : Bool :=
  n == "movies" || n == ".."

/-- An `os.stat` oracle that fails on every path. -/
def osStatFail : String → Except String OsStatInfo :=
  fun _ => .error "FileNotFoundError"

/-- An SMB stat oracle that fails on every path. -/
def smbStatFail : String → Except String SmbStatInfo :=
  fun _ => .error "SMBException"

/-! ## Claim theorems -/

/-- C1 counterexample: the probe operations are not uniformly fail-soft.
`LocalFileSystem.get_size` delegates bare to `os.path.getsize`, so an OS
error propagates instead of collapsing to `0`; and every FTP probe calls
`self._connect()` outside its `try`, so a connection-establishment failure
propagates out of `get_size`/`exists`/`is_dir`. -/
theorem C1_counterexample :
    LocalFileSystem.get_size osStatFail "missing.mkv" = .error "FileNotFoundError" ∧
    FTPFileSystem.get_size srvConnFail ⟨none, 0⟩ "a.mkv" = .error "ConnectionRefusedError" ∧
    FTPFileSystem.exists' srvConnFail ⟨none, 0⟩ "a.mkv" = .error "ConnectionRefusedError" ∧
    FTPFileSystem.is_dir srvConnFail ⟨none, 0⟩ "a.mkv" = .error "ConnectionRefusedError" :=
  ⟨rfl, rfl, rfl, rfl⟩

/-- C1 (amended): the SMB probes never raise and return `0`/`false` on any
underlying failure; the FTP probes never raise once a connection is
established, collapsing any subsequent failure to the default, but they
propagate a connection-establishment failure; the Local `exists`/`is_dir`
never raise and return `false` on failure, while Local `get_size`
propagates the underlying OS error. -/
theorem C1_probes_fail_soft_amended {σ : Type} (srv : FtpSrv σ) :
    (∀ (smbStat : String → Except String SmbStatInfo) (host share p : String)
      (e : String), smbStat (SMBFileSystem.smb_path host share p) = .error e →
      SMBFileSystem.get_size smbStat host share p = 0 ∧
      SMBFileSystem.exists' smbStat host share p = false ∧
      SMBFileSystem.is_dir smbStat host share p = false) ∧
    (∀ (i : FtpInst σ) (c : σ) (p : String), i.conn = some c →
      (∃ v, FTPFileSystem.get_size srv i p = .ok v) ∧
      (∃ v, FTPFileSystem.exists' srv i p = .ok v) ∧
      (∃ v, FTPFileSystem.is_dir srv i p = .ok v)) ∧
    (∀ (i : FtpInst σ) (c : σ) (p e : String), i.conn = some c →
      srv.sizeR c p = .error e → FTPFileSystem.get_size srv i p = .ok (0, i)) ∧
    (∀ (i : FtpInst σ) (p e : String), i.conn = none → srv.connectR = .error e →
      FTPFileSystem.get_size srv i p = .error e) ∧
    (∀ (osStat : String → Except String OsStatInfo) (p e : String),
      osStat p = .error e →
      LocalFileSystem.exists' osStat p = false ∧
      LocalFileSystem.is_dir osStat p = false) := by
  refine ⟨?_, ?_, ?_, ?_, ?_⟩
  · intro smbStat host share p e h
    refine ⟨?_, ?_, ?_⟩ <;>
      simp [SMBFileSystem.get_size, SMBFileSystem.exists', SMBFileSystem.is_dir, h]
  · intro i c p h
    have hc : FTPFileSystem.connectOp srv i = .ok (c, i) := by
      simp [FTPFileSystem.connectOp, h]
    refine ⟨?_, ?_, ?_⟩
    · cases hs : srv.sizeR c p with
      | ok r => exact ⟨(r.getD 0, i), by simp [FTPFileSystem.get_size, hc, hs]⟩
      | error e => exact ⟨(0, i), by simp [FTPFileSystem.get_size, hc, hs]⟩
    · cases h1 : srv.cwdR c p with
      | ok c1 =>
        cases h2 : srv.cwdR c1 "/" with
        | ok c2 =>
          exact ⟨(true, ⟨some c2, i.opens⟩),
            by simp [FTPFileSystem.exists', hc, h1, h2]⟩
        | error e =>
          cases h3 : srv.sizeR c1 p with
          | ok r =>
            exact ⟨(true, ⟨some c1, i.opens⟩),
              by simp [FTPFileSystem.exists', ftpExistsFallback, hc, h1, h2, h3]⟩
          | error e2 =>
            exact ⟨(false, ⟨some c1, i.opens⟩),
              by simp [FTPFileSystem.exists', ftpExistsFallback, hc, h1, h2, h3]⟩
      | error e =>
        cases h3 : srv.sizeR c p with
        | ok r =>
          exact ⟨(true, ⟨some c, i.opens⟩),
            by simp [FTPFileSystem.exists', ftpExistsFallback, hc, h1, h3]⟩
        | error e2 =>
          exact ⟨(false, ⟨some c, i.opens⟩),
            by simp [FTPFileSystem.exists', ftpExistsFallback, hc, h1, h3]⟩
    · exact ⟨((FTPFileSystem.is_dirConn srv c p).1,
        ⟨some (FTPFileSystem.is_dirConn srv c p).2, i.opens⟩),
        by simp [FTPFileSystem.is_dir, hc]⟩
  · intro i c p e h hs
    simp [FTPFileSystem.get_size, FTPFileSystem.connectOp, h, hs]
  · intro i p e h hc
    simp [FTPFileSystem.get_size, FTPFileSystem.connectOp, h, hc]
  · intro osStat p e h
    constructor <;>
      simp [LocalFileSystem.exists', LocalFileSystem.is_dir, os_path_exists,
        os_path_isdir, h]

/-- C1 witness: the amended theorem applied to concrete failing oracles and
a concrete established connection. -/
theorem C1_probes_fail_soft_amended_witness :
    (SMBFileSystem.get_size smbStatFail "nas" "share" "/x.mkv" = 0 ∧
      SMBFileSystem.exists' smbStatFail "nas" "share" "/x.mkv" = false ∧
      SMBFileSystem.is_dir smbStatFail "nas" "share" "/x.mkv" = false) ∧
    (∃ v, FTPFileSystem.get_size srvConnFail ⟨some (), 1⟩ "a.mkv" = .ok v) ∧
    FTPFileSystem.get_size srvConnFail ⟨some (), 1⟩ "a.mkv" = .ok (0, ⟨some (), 1⟩) ∧
    (LocalFileSystem.exists' osStatFail "missing.mkv" = false ∧
      LocalFileSystem.is_dir osStatFail "missing.mkv" = false) := by
  have h := @C1_probes_fail_soft_amended Unit srvConnFail
  exact ⟨h.1 smbStatFail "nas" "share" "/x.mkv" "SMBException" rfl,
    (h.2.1 ⟨some (), 1⟩ () "a.mkv" rfl).1,
    h.2.2.1 ⟨some (), 1⟩ () "a.mkv" "421" rfl rfl,
    h.2.2.2.2 osStatFail "missing.mkv" "FileNotFoundError" rfl⟩

/-- C2: on the fixture server whose tree has the three directories `/`,
`/a` and `/a/b` (MLSD supported everywhere, every directory reachable),
`walk("/")` yields triples only for `/` and `/a`.  The frontier entry for
`b` is the *relative* path `a/b` produced by `join`, which the server
resolves against the working directory `/a` left by the previous
iteration (giving `/a/a/b`), so the `cwd` fails and directory `/a/b` —
present in the tree, as the second conjunct shows — is never visited and
its file `g.mkv` is never reported. -/
theorem C2_ftp_walk_misses_nested_directory :
    FTPFileSystem.walk srvC2 ⟨none, 0⟩ 100 "/" =
      .ok [("/", ["a"], []), ("/a", ["b"], ["f.mkv"])] ∧
    (findDir treeC2 ["a", "b"]).isSome = true ∧
    treeC2.subdirs.length = 1 ∧
    (FsTree.node [("b", FsTree.node [] ["g.mkv"])] ["f.mkv"]).subdirs.length = 1 :=
  ⟨rfl, rfl, rfl, rfl⟩

/-- C5 counterexample: an operation issued after an explicit `close()`
re-establishes the connection automatically — `_connect` sees
`self._ftp is None` and reconnects.  The first call opens connection 0
(ghost counter 0→1); after `close` the cached connection is `none`; the
next `get_size` succeeds again with a freshly opened connection (counter
1→2), refuting "never re-establishes after an explicit close". -/
theorem C5_counterexample :
    FTPFileSystem.get_size srvOkAll ⟨none, 0⟩ "f.mkv" = .ok (7, ⟨some 0, 1⟩) ∧
    FTPFileSystem.close (⟨some 0, 1⟩ : FtpInst Nat) = ⟨none, 1⟩ ∧
    FTPFileSystem.get_size srvOkAll (FTPFileSystem.close ⟨some 0, 1⟩) "f.mkv" =
      .ok (7, ⟨some 0, 2⟩) :=
  ⟨rfl, rfl, rfl⟩

/-- C5 (amended): the connection is opened on the first I/O call, cached
and reused as-is by subsequent calls, and cleared by `close()`; after an
explicit close the *next* operation automatically re-establishes a fresh
connection (the ghost open-counter increments again). -/
theorem C5_connection_lifecycle_amended {σ : Type} (srv : FtpSrv σ) :
    (∀ (i : FtpInst σ) (c : σ), i.conn = some c →
      FTPFileSystem.connectOp srv i = .ok (c, i)) ∧
    (∀ (i : FtpInst σ) (c : σ), i.conn = none → srv.connectR = .ok c →
      FTPFileSystem.connectOp srv i = .ok (c, ⟨some c, i.opens + 1⟩)) ∧
    (∀ i : FtpInst σ, (FTPFileSystem.close i).conn = none) ∧
    (∀ (i : FtpInst σ) (c : σ), srv.connectR = .ok c →
      FTPFileSystem.connectOp srv (FTPFileSystem.close i) =
        .ok (c, ⟨some c, i.opens + 1⟩)) := by
  refine ⟨?_, ?_, ?_, ?_⟩
  · intro i c h; simp [FTPFileSystem.connectOp, h]
  · intro i c h hc; simp [FTPFileSystem.connectOp, h, hc]
  · intro i; simp [FTPFileSystem.close]
  · intro i c hc; simp [FTPFileSystem.connectOp, FTPFileSystem.close, hc]

/-- C5 witness: the amended lifecycle applied to a concrete server and
instance states. -/
theorem C5_connection_lifecycle_amended_witness :
    FTPFileSystem.connectOp srvOkAll ⟨some 5, 3⟩ = .ok (5, ⟨some 5, 3⟩) ∧
    FTPFileSystem.connectOp srvOkAll ⟨none, 3⟩ = .ok (0, ⟨some 0, 4⟩) ∧
    (FTPFileSystem.close (⟨some 5, 3⟩ : FtpInst Nat)).conn = none ∧
    FTPFileSystem.connectOp srvOkAll (FTPFileSystem.close ⟨some 5, 3⟩) =
      .ok (0, ⟨some 0, 4⟩) := by
  have h := @C5_connection_lifecycle_amended Nat srvOkAll
  exact ⟨h.1 ⟨some 5, 3⟩ 5 rfl, h.2.1 ⟨none, 3⟩ 0 rfl rfl, h.2.2.1 ⟨some 5, 3⟩,
    h.2.2.2 ⟨some 5, 3⟩ 0 rfl⟩

/-- C6: the factory returns the Local backend when the remote-fs section
is absent or its discriminator is `local`; `type: ftp` without an `ftp`
sub-configuration fails with a configuration error whose message names the
expected section `scanner.remote_fs.ftp`; with the sub-configuration
present it only constructs the instance (cached connection `none`, no
network activity); an unrecognized discriminator fails with an
unsupported-backend error whose message ends in the offending value. -/
theorem C6_factory_validation (rf : RemoteFsConfig) :
    (get_filesystem ⟨⟨none⟩⟩ = .ok .localfs) ∧
    (rf.type = "local" → get_filesystem ⟨⟨some rf⟩⟩ = .ok .localfs) ∧
    (rf.type = "ftp" → rf.ftp = none →
      get_filesystem ⟨⟨some rf⟩⟩ =
        .error ("FTP配置缺失，请在config.yml中配置" ++ "scanner.remote_fs.ftp")) ∧
    (∀ f : FtpConfig, rf.type = "ftp" → rf.ftp = some f →
      get_filesystem ⟨⟨some rf⟩⟩ =
        .ok (.ftpfs f.host f.port f.username f.password f.encoding none)) ∧
    (rf.type ≠ "local" → rf.type ≠ "ftp" → rf.type ≠ "smb" →
      get_filesystem ⟨⟨some rf⟩⟩ = .error ("不支持的远程文件系统类型: " ++ rf.type)) := by
  refine ⟨rfl, ?_, ?_, ?_, ?_⟩
  · intro h; simp [get_filesystem, h]
  · intro h hftp
    simp [get_filesystem, h, hftp]
  · intro f h hftp
    simp [get_filesystem, h, hftp]
  · intro h1 h2 h3
    simp [get_filesystem, h1, h2, h3]

/-- C6 witness: the factory theorem applied to concrete configurations. -/
theorem C6_factory_validation_witness :
    get_filesystem ⟨⟨some ⟨"ftp", none, none⟩⟩⟩ =
      .error ("FTP配置缺失，请在config.yml中配置" ++ "scanner.remote_fs.ftp") ∧
    get_filesystem ⟨⟨some ⟨"nfs", none, none⟩⟩⟩ =
      .error ("不支持的远程文件系统类型: " ++ "nfs") ∧
    get_filesystem ⟨⟨some ⟨"local", none, none⟩⟩⟩ = .ok .localfs ∧
    get_filesystem ⟨⟨some ⟨"ftp", some ⟨"h", 21, "anonymous", "", "utf-8"⟩, none⟩⟩⟩ =
      .ok (.ftpfs "h" 21 "anonymous" "" "utf-8" none) := by
  refine ⟨(C6_factory_validation ⟨"ftp", none, none⟩).2.2.1 rfl rfl,
    (C6_factory_validation ⟨"nfs", none, none⟩).2.2.2.2 (by decide) (by decide) (by decide),
    (C6_factory_validation ⟨"local", none, none⟩).2.1 rfl,
    (C6_factory_validation ⟨"ftp", some ⟨"h", 21, "anonymous", "", "utf-8"⟩, none⟩).2.2.2.1
      ⟨"h", 21, "anonymous", "", "utf-8"⟩ rfl rfl⟩

/-- C7 counterexample: on a server whose connection drops right after the
probe `cwd` succeeds, `is_dir` returns `false` even though the change into
the path succeeded, and the working directory is *not* restored — the
session is left inside the probed path `/home/d`. -/
theorem C7_counterexample :
    srvCwdDrop.cwdR "/home" "d" = .ok "/home/d" ∧
    FTPFileSystem.is_dirConn srvCwdDrop "/home" "d" = (false, "/home/d") ∧
    ("/home/d" : String) ≠ "/home" :=
  ⟨rfl, rfl, by decide⟩

/-- C7 (amended): `is_dir` records the working directory, attempts to
change into the path and, on success, attempts to restore the recorded
directory; it returns `true` exactly when recording, change and
restoration all succeed.  When recording or the change fails the session
state is unchanged; when only the restoration fails the session is left
inside the target path and `false` is returned. -/
theorem C7_is_dir_behavior_amended {σ : Type} (srv : FtpSrv σ) (c : σ)
    (path : String) :
    (∀ e, srv.pwdR c = .error e →
      FTPFileSystem.is_dirConn srv c path = (false, c)) ∧
    (∀ cur e, srv.pwdR c = .ok cur → srv.cwdR c path = .error e →
      FTPFileSystem.is_dirConn srv c path = (false, c)) ∧
    (∀ cur c1 e, srv.pwdR c = .ok cur → srv.cwdR c path = .ok c1 →
      srv.cwdR c1 cur = .error e →
      FTPFileSystem.is_dirConn srv c path = (false, c1)) ∧
    (∀ cur c1 c2, srv.pwdR c = .ok cur → srv.cwdR c path = .ok c1 →
      srv.cwdR c1 cur = .ok c2 →
      FTPFileSystem.is_dirConn srv c path = (true, c2)) := by
  refine ⟨?_, ?_, ?_, ?_⟩ <;> intros <;> simp_all [FTPFileSystem.is_dirConn]

/-- C7 witness: the amended characterization applied on a server where all
three steps succeed. -/
theorem C7_is_dir_behavior_amended_witness :
    FTPFileSystem.is_dirConn srvOkAll 0 "x" = (true, 2) :=
  (C7_is_dir_behavior_amended srvOkAll 0 "x").2.2.2 "/" 1 2 rfl rfl rfl

/-- C3: for any MLSD listing, every name in the subdirectory list comes
from a line classified `type=dir` (split on `';'`, trimmed last field as
name, preceding fields scanned case-insensitively for a `type=` fact),
every name in the file list from a line classified `type=file`, every
dir-tagged (resp. file-tagged) non-navigation line lands in the
corresponding list, and `.`/`..` never appear in either list. -/
theorem C3_mlsd_classification (items : List String) :
    (∀ n ∈ (classifyMlsd items).1, n ≠ "." ∧ n ≠ ".." ∧
      ∃ item ∈ items, mlsdEntryName item = n ∧ mlsdEntryType item = "dir") ∧
    (∀ n ∈ (classifyMlsd items).2, n ≠ "." ∧ n ≠ ".." ∧
      ∃ item ∈ items, mlsdEntryName item = n ∧ mlsdEntryType item = "file") ∧
    (∀ item ∈ items, mlsdEntryName item ≠ "." → mlsdEntryName item ≠ ".." →
      (mlsdEntryType item = "dir" → mlsdEntryName item ∈ (classifyMlsd items).1) ∧
      (mlsdEntryType item = "file" → mlsdEntryName item ∈ (classifyMlsd items).2)) := by
  induction items with
  | nil => exact ⟨by simp [classifyMlsd], by simp [classifyMlsd], by simp⟩
  | cons item rest ih =>
    obtain ⟨ih1, ih2, ih3⟩ := ih
    by_cases hnav : mlsdEntryName item = "." ∨ mlsdEntryName item = ".."
    · have hcl : classifyMlsd (item :: rest) = classifyMlsd rest := by
        simp [classifyMlsd, hnav]
      refine ⟨?_, ?_, ?_⟩
      · intro n hn
        rw [hcl] at hn
        obtain ⟨h1, h2, it, hit, hh⟩ := ih1 n hn
        exact ⟨h1, h2, it, List.mem_cons_of_mem _ hit, hh⟩
      · intro n hn
        rw [hcl] at hn
        obtain ⟨h1, h2, it, hit, hh⟩ := ih2 n hn
        exact ⟨h1, h2, it, List.mem_cons_of_mem _ hit, hh⟩
      · intro it hit hb1 hb2
        rcases List.mem_cons.mp hit with heq | hmem
        · subst heq
          rcases hnav with h | h
          · exact absurd h hb1
          · exact absurd h hb2
        · rw [hcl]
          exact ih3 it hmem hb1 hb2
    · have hne1 : mlsdEntryName item ≠ "." := fun h => hnav (Or.inl h)
      have hne2 : mlsdEntryName item ≠ ".." := fun h => hnav (Or.inr h)
      by_cases hd : mlsdEntryType item = "dir"
      · have hcl : classifyMlsd (item :: rest) =
            (mlsdEntryName item :: (classifyMlsd rest).1, (classifyMlsd rest).2) := by
          simp [classifyMlsd, hnav, hd]
        refine ⟨?_, ?_, ?_⟩
        · intro n hn
          rw [hcl] at hn
          rcases List.mem_cons.mp hn with heq | hmem
          · subst heq
            exact ⟨hne1, hne2, item, List.mem_cons_self _ _, rfl, hd⟩
          · obtain ⟨h1, h2, it, hit, hh⟩ := ih1 n hmem
            exact ⟨h1, h2, it, List.mem_cons_of_mem _ hit, hh⟩
        · intro n hn
          rw [hcl] at hn
          obtain ⟨h1, h2, it, hit, hh⟩ := ih2 n hn
          exact ⟨h1, h2, it, List.mem_cons_of_mem _ hit, hh⟩
        · intro it hit hb1 hb2
          rw [hcl]
          rcases List.mem_cons.mp hit with heq | hmem
          · subst heq
            refine ⟨fun _ => List.mem_cons_self _ _, fun hf => ?_⟩
            rw [hf] at hd
            exact absurd hd (by decide)
          · have h3 := ih3 it hmem hb1 hb2
            exact ⟨fun hx => List.mem_cons_of_mem _ (h3.1 hx), h3.2⟩
      · by_cases hf : mlsdEntryType item = "file"
        · have hcl : classifyMlsd (item :: rest) =
              ((classifyMlsd rest).1, mlsdEntryName item :: (classifyMlsd rest).2) := by
            simp [classifyMlsd, hnav, hd, hf]
          refine ⟨?_, ?_, ?_⟩
          · intro n hn
            rw [hcl] at hn
            obtain ⟨h1, h2, it, hit, hh⟩ := ih1 n hn
            exact ⟨h1, h2, it, List.mem_cons_of_mem _ hit, hh⟩
          · intro n hn
            rw [hcl] at hn
            rcases List.mem_cons.mp hn with heq | hmem
            · subst heq
              exact ⟨hne1, hne2, item, List.mem_cons_self _ _, rfl, hf⟩
            · obtain ⟨h1, h2, it, hit, hh⟩ := ih2 n hmem
              exact ⟨h1, h2, it, List.mem_cons_of_mem _ hit, hh⟩
          · intro it hit hb1 hb2
            rw [hcl]
            rcases List.mem_cons.mp hit with heq | hmem
            · subst heq
              refine ⟨fun hx => ?_, fun _ => List.mem_cons_self _ _⟩
              exact absurd hx hd
            · have h3 := ih3 it hmem hb1 hb2
              exact ⟨h3.1, fun hx => List.mem_cons_of_mem _ (h3.2 hx)⟩
        · have hcl : classifyMlsd (item :: rest) = classifyMlsd rest := by
            simp [classifyMlsd, hnav, hd, hf]
          refine ⟨?_, ?_, ?_⟩
          · intro n hn
            rw [hcl] at hn
            obtain ⟨h1, h2, it, hit, hh⟩ := ih1 n hn
            exact ⟨h1, h2, it, List.mem_cons_of_mem _ hit, hh⟩
          · intro n hn
            rw [hcl] at hn
            obtain ⟨h1, h2, it, hit, hh⟩ := ih2 n hn
            exact ⟨h1, h2, it, List.mem_cons_of_mem _ hit, hh⟩
          · intro it hit hb1 hb2
            rw [hcl]
            rcases List.mem_cons.mp hit with heq | hmem
            · subst heq
              exact ⟨fun hx => absurd hx hd, fun hx => absurd hx hf⟩
            · exact ih3 it hmem hb1 hb2

/-- C3 witness: a realistic listing with a dir fact carrying extra facts,
an upper-case file fact, and a `cdir` navigation entry. -/
theorem C3_mlsd_classification_witness :
    "a" ∈ (classifyMlsd
      ["type=dir;modify=20240101; a", "Type=FILE;size=9; b.mkv", "type=cdir; ."]).1 ∧
    "b.mkv" ∈ (classifyMlsd
      ["type=dir;modify=20240101; a", "Type=FILE;size=9; b.mkv", "type=cdir; ."]).2 := by
  have h := C3_mlsd_classification
    ["type=dir;modify=20240101; a", "Type=FILE;size=9; b.mkv", "type=cdir; ."]
  refine ⟨?_, ?_⟩
  · have := (h.2.2 "type=dir;modify=20240101; a" (by simp) (by decide) (by decide)).1
    exact this (by decide)
  · have := (h.2.2 "Type=FILE;size=9; b.mkv" (by simp) (by decide) (by decide)).2
    exact this (by decide)

/-- C4: when MLSD is unavailable the NLST fallback classifies each listed
name other than `.`/`..` as a subdirectory exactly when the
directory-change probe (change into the entry, then back out) succeeds,
and as a file otherwise.  The probe outcome is assumed determined by the
entry name (`H`), which is how a static server behaves; the scan threads
the session state accordingly. -/
theorem C4_nlst_fallback_classification {σ : Type} (srv : FtpSrv σ)
    (P : String → Bool) (H : ∀ (s : σ) (n : String), probeOkB srv s n = P n) :
    ∀ (names : List String) (s : σ),
      (nlstScan srv names s).1 =
        names.filter (fun n => !(n == "." || n == "..") && P n) ∧
      (nlstScan srv names s).2.1 =
        names.filter (fun n => !(n == "." || n == "..") && !P n) := by
  intro names
  induction names with
  | nil => intro s; simp [nlstScan]
  | cons n rest ih =>
    intro s
    by_cases hnav : n = "." ∨ n = ".."
    · rcases hnav with h | h <;> subst h <;>
        simp [nlstScan, ih s]
    · have hb1 : (n == ".") = false := by
        simp only [beq_eq_false_iff_ne]
        exact fun h => hnav (Or.inl h)
      have hb2 : (n == "..") = false := by
        simp only [beq_eq_false_iff_ne]
        exact fun h => hnav (Or.inr h)
      have hp := H s n
      cases hc : srv.cwdR s n with
      | error e =>
        have hP : P n = false := by
          rw [← hp]; simp [probeOkB, hc]
        simp [nlstScan, hnav, hc, hb1, hb2, hP, ih s]
      | ok s1 =>
        cases hc2 : srv.cwdR s1 ".." with
        | error e =>
          have hP : P n = false := by
            rw [← hp]; simp [probeOkB, hc, hc2]
          simp [nlstScan, hnav, hc, hc2, hb1, hb2, hP, ih s1]
        | ok s2 =>
          have hP : P n = true := by
            rw [← hp]; simp [probeOkB, hc, hc2]
          simp [nlstScan, hnav, hc, hc2, hb1, hb2, hP, ih s2]

/-- C4 witness: on `srvFlat` (no MLSD; `cwd` succeeds exactly on `movies`
and `..`) the scan of `["movies", "clip.mp4", "."]` classifies `movies` as
a directory, `clip.mp4` as a file, and skips `.`. -/
theorem C4_nlst_fallback_classification_witness :
    (nlstScan srvFlat ["movies", "clip.mp4", "."] "/").1 = ["movies"] ∧
    (nlstScan srvFlat ["movies", "clip.mp4", "."] "/").2.1 = ["clip.mp4"] := by
  have hH : ∀ (s n : String), probeOkB srvFlat s n = probeFlat n := by
    intro s n
    by_cases h1 : n = "movies" ∨ n = ".."
    · have hc : srvFlat.cwdR s n = .ok (s ++ "/" ++ n) := by
        simp [srvFlat, h1]
      have hc2 : srvFlat.cwdR (s ++ "/" ++ n) ".." =
          .ok (s ++ "/" ++ n ++ "/" ++ "..") := by
        simp [srvFlat]
      have hpf : probeFlat n = true := by
        rcases h1 with h | h <;> simp [probeFlat, h]
      rw [hpf]
      simp [probeOkB, hc, hc2]
    · have hc : srvFlat.cwdR s n = .error "550" := by
        simp only [srvFlat]
        rw [if_neg h1]
      have hpf : probeFlat n = false := by
        simp only [probeFlat, Bool.or_eq_false_iff, beq_eq_false_iff_ne]
        exact ⟨fun h => h1 (Or.inl h), fun h => h1 (Or.inr h)⟩
      rw [hpf]
      simp [probeOkB, hc]
  have h := C4_nlst_fallback_classification srvFlat probeFlat hH
    ["movies", "clip.mp4", "."] "/"
  refine ⟨?_, ?_⟩
  · rw [h.1]; decide
  · rw [h.2]; decide

/-- The segmentation function never returns the empty list. -/
theorem segsCh_ne_nil (l : List Char) : segsCh l ≠ [] := by
  induction l with
  | nil => simp [segsCh]
  | cons c rest ih =>
    by_cases h : c = '/' <;> simp [segsCh, h]

/-- Segments of a list around a separator occurrence. -/
theorem segsCh_append_slash (a b : List Char) :
    segsCh (a ++ '/' :: b) = segsCh a ++ segsCh b := by
  induction a with
  | nil => simp [segsCh]
  | cons c a' ih =>
    by_cases h : c = '/'
    · subst h; simp [segsCh, ih]
    · obtain ⟨s, ss, hss⟩ : ∃ s ss, segsCh a' = s :: ss := by
        cases hs : segsCh a' with
        | nil => exact absurd hs (segsCh_ne_nil a')
        | cons s ss => exact ⟨s, ss, rfl⟩
      simp [segsCh, h, ih, hss]

/-- A `'/'`-join of strings each free of empty segments has no empty
segment. -/
theorem slashJoinAll_no_empty_seg (l : List String) (hne : l ≠ [])
    (h : ∀ q ∈ l, [] ∉ segsCh q.data) :
    [] ∉ segsCh (slashJoinAll l).data := by
  induction l with
  | nil => exact absurd rfl hne
  | cons a rest ih =>
    cases rest with
    | nil => simpa [slashJoinAll] using h a (by simp)
    | cons b t =>
      have hdata : (slashJoinAll (a :: b :: t)).data =
          a.data ++ '/' :: (slashJoinAll (b :: t)).data := by
        show (a ++ "/" ++ slashJoinAll (b :: t)).data = _
        rw [String.data_append, String.data_append, List.append_assoc]
        rfl
      rw [hdata, segsCh_append_slash]
      intro hmem
      rcases List.mem_append.mp hmem with hm | hm
      · exact h a (by simp) hm
      · exact ih (by simp) (fun q hq => h q (List.mem_cons_of_mem _ hq)) hm

/-- C8 counterexample: `join` does not trim separators *between* output
segments coming from an argument that strips to the empty string: on
`["a", "/", "b"]` (every argument non-empty, so none dropped) the result
is `"a//b"`, which contains an empty segment. -/
theorem C8_counterexample :
    fsJoin ["a", "/", "b"] = "a//b" ∧
    [] ∈ segsCh (fsJoin ["a", "/", "b"]).data ∧
    "" ∈ pySplit (fsJoin ["a", "/", "b"]) "/" :=
  ⟨by decide, by decide, by decide⟩

/-- C8 (amended): `join` concatenates the slash-stripped non-empty
arguments with `'/'`; `join("a/", "/b", "c") = "a/b/c"` holds, and the
result contains no empty segment provided some argument is kept and every
kept argument, after stripping, is itself free of empty segments (in
particular does not strip to `""` and has no doubled internal slash). -/
theorem C8_join_segments_amended (paths : List String)
    (hne : (paths.filter (fun p => p != "")).map pyStripSlash ≠ [])
    (h : ∀ q ∈ (paths.filter (fun p => p != "")).map pyStripSlash,
      [] ∉ segsCh q.data) :
    [] ∉ segsCh (fsJoin paths).data ∧ fsJoin ["a/", "/b", "c"] = "a/b/c" :=
  ⟨slashJoinAll_no_empty_seg _ hne h, by decide⟩

/-- C8 witness: the amended statement at the spec's example arguments. -/
theorem C8_join_segments_amended_witness :
    [] ∉ segsCh (fsJoin ["a/", "/b", "c"]).data ∧
    fsJoin ["a/", "/b", "c"] = "a/b/c" :=
  C8_join_segments_amended ["a/", "/b", "c"] (by decide) (by decide)

/-- The head surviving `dropWhile` fails the dropped predicate. -/
theorem head_dropWhile_not (p : Char → Bool) :
    ∀ (l : List Char) (c : Char), (l.dropWhile p).head? = some c →
      p c = false := by
  intro l
  induction l with
  | nil => intro c h; simp at h
  | cons a t ih =>
    intro c h
    rw [List.dropWhile_cons] at h
    by_cases hp : p a
    · rw [if_pos hp] at h; exact ih c h
    · rw [if_neg hp] at h
      simp only [List.head?_cons, Option.some.injEq] at h
      subst h
      exact Bool.eq_false_iff.mpr hp

/-- `dropTrailing` preserves the head of a list it leaves non-empty. -/
theorem dropTrailing_head (p : Char → Bool) :
    ∀ (m : List Char) (c : Char), (dropTrailing p m).head? = some c →
      m.head? = some c := by
  intro m
  induction m with
  | nil => intro c h; simp [dropTrailing] at h
  | cons a t _ =>
    intro c h
    cases hd : dropTrailing p t with
    | nil =>
      rw [dropTrailing, hd] at h
      by_cases hp : p a
      · rw [if_pos hp] at h; simp at h
      · rw [if_neg hp] at h
        simp only [List.head?_cons, Option.some.injEq] at h
        simp [h]
    | cons x xs =>
      rw [dropTrailing, hd] at h
      simp only [List.head?_cons, Option.some.injEq] at h
      simp [h]

/-- The last element surviving `dropTrailing` fails the dropped
predicate. -/
theorem dropTrailing_getLast (p : Char → Bool) :
    ∀ (m : List Char) (c : Char), (dropTrailing p m).getLast? = some c →
      p c = false := by
  intro m
  induction m with
  | nil => intro c h; simp [dropTrailing] at h
  | cons a t ih =>
    intro c h
    cases hd : dropTrailing p t with
    | nil =>
      rw [dropTrailing, hd] at h
      by_cases hp : p a
      · rw [if_pos hp] at h; simp at h
      · rw [if_neg hp] at h
        simp only [List.getLast?_singleton, Option.some.injEq] at h
        subst h
        exact Bool.eq_false_iff.mpr hp
    | cons x xs =>
      rw [dropTrailing, hd] at h
      rw [List.getLast?_cons_cons, ← hd] at h
      exact ih c h

/-- The slash-strip never leaves a leading `'/'`. -/
theorem pyStripSlash_head_ne_slash (s : String) (c : Char)
    (h : (pyStripSlash s).data.head? = some c) : c ≠ '/' := by
  have h2 := dropTrailing_head _ _ _ h
  have h3 := head_dropWhile_not _ _ _ h2
  simpa using h3

/-- The slash-strip never leaves a trailing `'/'`. -/
theorem pyStripSlash_getLast_ne_slash (s : String) (c : Char)
    (h : (pyStripSlash s).data.getLast? = some c) : c ≠ '/' := by
  have h2 := dropTrailing_getLast _ _ _ h
  simpa using h2

/-- C10: `join` drops empty arguments and strips each kept argument of
leading and trailing slashes — so an absolute first argument loses its
leading slash (`join("/root", "b") = "root/b"`, and in general the join of
an absolute `current` with any `dirname` starts with a non-slash
character) — and consequently `walk` on the fixture rooted at `/media`
enqueues the frontier path `"media/sub"`, the leading slash of the root
removed. -/
theorem C10_join_strip_and_enqueue :
    fsJoin ["/root", "b"] = "root/b" ∧
    (∀ (s : String) (c : Char), (pyStripSlash s).data.head? = some c → c ≠ '/') ∧
    (∀ (s : String) (c : Char), (pyStripSlash s).data.getLast? = some c → c ≠ '/') ∧
    (∀ l1 l2 : List String, fsJoin (l1 ++ "" :: l2) = fsJoin (l1 ++ l2)) ∧
    (∀ current d : String, current.data.head? = some '/' →
      pyStripSlash current ≠ "" →
      ∃ c, (fsJoin [current, d]).data.head? = some c ∧ c ≠ '/') ∧
    (ftpWalkStep srvM [] "/media").2.2 = ["media/sub"] := by
  refine ⟨by decide, pyStripSlash_head_ne_slash, pyStripSlash_getLast_ne_slash,
    ?_, ?_, by decide⟩
  · intro l1 l2
    simp [fsJoin, List.filter_append]
  · intro current d hcur hne
    have hcne : current ≠ "" := by
      intro h; rw [h] at hcur; simp at hcur
    have hdata : (pyStripSlash current).data ≠ [] := by
      intro h
      exact hne (by simpa using congrArg String.mk h)
    obtain ⟨c, cs, hcs⟩ : ∃ c cs, (pyStripSlash current).data = c :: cs := by
      cases hl : (pyStripSlash current).data with
      | nil => exact absurd hl hdata
      | cons c cs => exact ⟨c, cs, rfl⟩
    have hcslash : c ≠ '/' :=
      pyStripSlash_head_ne_slash current c (by rw [hcs]; rfl)
    by_cases hd : d = ""
    · subst hd
      refine ⟨c, ?_, hcslash⟩
      have : fsJoin [current, ""] = pyStripSlash current := by
        simp [fsJoin, slashJoinAll, hcne]
      rw [this, hcs]
      rfl
    · refine ⟨c, ?_, hcslash⟩
      have : fsJoin [current, d] =
          pyStripSlash current ++ "/" ++ pyStripSlash d := by
        simp [fsJoin, slashJoinAll, hcne, hd]
      rw [this, String.data_append, String.data_append, hcs]
      rfl

/-- C10 witness: the general conjuncts applied at the claim's example and
at the `/media` fixture. -/
theorem C10_join_strip_and_enqueue_witness :
    ('r' : Char) ≠ '/' ∧
    fsJoin (["a"] ++ "" :: ["b"]) = fsJoin (["a"] ++ ["b"]) ∧
    (∃ c, (fsJoin ["/media", "sub"]).data.head? = some c ∧ c ≠ '/') := by
  refine ⟨C10_join_strip_and_enqueue.2.1 "/root" 'r' (by decide),
    C10_join_strip_and_enqueue.2.2.2.1 ["a"] ["b"],
    C10_join_strip_and_enqueue.2.2.2.2.1 "/media" "sub" (by decide) (by decide)⟩

/-- C9: for any URL whose scheme parses as `smb` or `cifs` and which has a
host, `parse_remote_url` returns the smb kind with that host, the first
segment of the slash-stripped URL path as the share, the remainder
prefixed with `'/'` as the path (default `"/"`), the optional username and
password passed through, and the port defaulting to `445`; in particular
`parse_remote_url "smb://nas.local/share/videos"` yields host
`"nas.local"`, share `"share"`, path `"/videos"`, port `445`. -/
theorem C9_parse_smb_url (url host : String)
    (hs : (urlparseM url).scheme = "smb" ∨ (urlparseM url).scheme = "cifs")
    (hh : (urlparseM url).hostname = some host) :
    parse_remote_url url =
      .smbUrl host
        ((pySplit1 (pyStripSlash (urlparseM url).path) "/").headD "")
        (match pySplit1 (pyStripSlash (urlparseM url).path) "/" with
          | _ :: p :: _ => "/" ++ p
          | _ => "/")
        (urlparseM url).username (urlparseM url).password
        ((urlparseM url).port.getD 445) ∧
    parse_remote_url "smb://nas.local/share/videos" =
      .smbUrl "nas.local" "share" "/videos" none none 445 := by
  refine ⟨?_, by decide⟩
  have hftp : ¬(urlparseM url).scheme = "ftp" := by
    rcases hs with h | h <;> rw [h] <;> decide
  rw [parse_remote_url]
  rw [if_neg hftp, if_pos hs, hh]
  rfl

/-- C9 witness: the theorem applied at the spec's example URL. -/
theorem C9_parse_smb_url_witness :
    parse_remote_url "smb://nas.local/share/videos" =
      .smbUrl "nas.local" "share" "/videos" none none 445 :=
  (C9_parse_smb_url "smb://nas.local/share/videos" "nas.local"
    (Or.inl (by decide)) (by decide)).2
